import Mathlib

/-!
Verification of the virtual peripheral layer of the MAX30102 simulator
(`src/protocols/i2c_simulator.py`, with the sample-rate decode also present in
`src/simulator/max30102_device.py`).  Python dictionaries are embedded as
insertion-ordered association lists, machine integers as `Nat` with the
bitwise masks written explicitly, and each stateful method as a function from the
peripheral state to a (result, new state) pair.
-/

namespace MAX30102

/-- Modelled from the spec: the repository imports `config.register_map`
(register addresses, default register table, sample-rate bit patterns), a file
absent from the source tree.  Addresses follow the list in the spec of fixed
well-known 8-bit addresses (interrupt status, FIFO pointers/data/config, mode
config, SpO2 config, overflow counter, LED current controls, part/revision
identifiers). -/
def REG_INTR_STATUS_1 : Nat := 0x00

def REG_INTR_STATUS_2 : Nat := 0x01

def REG_INTR_ENABLE_1 : Nat := 0x02

def REG_INTR_ENABLE_2 : Nat := 0x03

def REG_FIFO_WR_PTR : Nat := 0x04

def REG_OVF_COUNTER : Nat := 0x05

def REG_FIFO_RD_PTR : Nat := 0x06

def REG_FIFO_DATA : Nat := 0x07

def REG_FIFO_CONFIG : Nat := 0x08

def REG_MODE_CONFIG : Nat := 0x09

def REG_SPO2_CONFIG : Nat := 0x0A

def REG_LED1_PA : Nat := 0x0C

def REG_LED2_PA : Nat := 0x0D

def REG_PILOT_PA : Nat := 0x0E

def REG_REV_ID : Nat := 0xFE

def REG_PART_ID : Nat := 0xFF

/-- Modelled from the spec: operating-mode constant for SpO2 mode (3-bit mode
field), used by the constructor. -/
def MODE_SPO2 : Nat := 0x03

/-- Modelled from the spec: the 3-bit sample-rate patterns decode in table
order to {50,100,200,400,800,1000,1600,3200} Hz. -/
def SPO2_SR_50 : Nat := 0x00

def SPO2_SR_100 : Nat := 0x01

def SPO2_SR_200 : Nat := 0x02

def SPO2_SR_400 : Nat := 0x03

def SPO2_SR_800 : Nat := 0x04

def SPO2_SR_1000 : Nat := 0x05

def SPO2_SR_1600 : Nat := 0x06

def SPO2_SR_3200 : Nat := 0x07

/-- Modelled from the spec: the fixed default register table
(`DEFAULT_REGISTER_VALUES` in the missing `config/register_map.py`).  The
tests of the repository pin the part identifier default to 0x15 and the revision
identifier to 0x02; the remaining defaults are zero. -/
def DEFAULT_REGISTER_VALUES : List (Nat × Nat) :=
  [(REG_INTR_STATUS_1, 0x00), (REG_INTR_STATUS_2, 0x00),
   (REG_INTR_ENABLE_1, 0x00), (REG_INTR_ENABLE_2, 0x00),
   (REG_FIFO_WR_PTR, 0x00), (REG_OVF_COUNTER, 0x00),
   (REG_FIFO_RD_PTR, 0x00), (REG_FIFO_DATA, 0x00),
   (REG_FIFO_CONFIG, 0x00), (REG_MODE_CONFIG, 0x00),
   (REG_SPO2_CONFIG, 0x00), (REG_LED1_PA, 0x00),
   (REG_LED2_PA, 0x00), (REG_PILOT_PA, 0x00),
   (REG_REV_ID, 0x02), (REG_PART_ID, 0x15)]

/-- Lookup in a Python-dict embedding (first matching key; keys are unique in
every dict the program builds). -/
def dict_lookup : List (Nat × Nat) → Nat → Option Nat
  | [], _ => none
  | (k, v) :: rest, key => if k = key then some v else dict_lookup rest key

/-- The Python membership test `key in d`. -/
def dict_contains (m : List (Nat × Nat)) (key : Nat) : Bool :=
  (dict_lookup m key).isSome

/-- The Python assignment `d[key] = value`: replace the value at an existing key in place,
otherwise append the new pair at the end (dicts preserve insertion order). -/
def dict_set : List (Nat × Nat) → Nat → Nat → List (Nat × Nat)
  | [], key, value => [(key, value)]
  | (k, v) :: rest, key, value =>
    if k = key then (k, value) :: rest else (k, v) :: dict_set rest key value

/-- State of `I2CProtocolSimulator`: the register dict, the FIFO buffer of
6-byte records, the bus-availability flag, the three operation counters, and
the three attributes that are only created by the config-write handlers
(`sample_rate`, `averaging_samples`, `fifo_rollover`), embedded as `Option`
fields that are `none` until first assigned. -/
structure I2CState where
  registers : List (Nat × Nat)
  fifo_buffer : List (List Nat)
  i2c_bus_available : Bool
  read_operations : Nat
  write_operations : Nat
  errors : Nat
  sample_rate : Option Nat
  averaging_samples : Option Nat
  fifo_rollover : Option Bool
deriving Repr, DecidableEq

/-- `self.fifo_size` (32 samples). -/
def fifo_size : Nat := 32

/-- `self.registers[register]` on a key the program guarantees present. -/
def reg_get (s : I2CState) (register : Nat) : Nat :=
  (dict_lookup s.registers register).getD 0

/-- `self.registers[register] = value`. -/
def reg_set (s : I2CState) (register value : Nat) : I2CState :=
  { s with registers := dict_set s.registers register value }

/-- `_handle_device_reset`: restore the default register table, clear the
FIFO, zero the three statistics counters. -/
def _handle_device_reset (s : I2CState) : I2CState :=
  { s with registers := DEFAULT_REGISTER_VALUES,
           fifo_buffer := [],
           read_operations := 0,
           write_operations := 0,
           errors := 0 }

/-- `_handle_mode_config_write`: reset bit 0x40 triggers the device reset,
otherwise store the value with the reserved bits cleared (mask 0x8F). -/
def _handle_mode_config_write (s : I2CState) (value : Nat) : I2CState :=
  if value &&& 0x40 ≠ 0 then _handle_device_reset s
  else reg_set s REG_MODE_CONFIG (value &&& 0x8F)

/-- The `averaging_map` dict in `_handle_fifo_config_write`. -/
def averaging_map : List (Nat × Nat) :=
  [(0, 1), (1, 2), (2, 4), (3, 8), (4, 16), (5, 32)]

/-- `_handle_fifo_config_write`: store the byte, derive the averaging factor
from bits 7-5 (defaulting to 1) and the rollover flag from bit 4. -/
def _handle_fifo_config_write (s : I2CState) (value : Nat) : I2CState :=
  { reg_set s REG_FIFO_CONFIG (value &&& 0xFF) with
      averaging_samples := some ((dict_lookup averaging_map ((value >>> 5) &&& 0x07)).getD 1),
      fifo_rollover := some (value &&& 0x10 ≠ 0) }

/-- The `sample_rates` dict literal in `_handle_spo2_config_write`. -/
def sample_rates_i2c : List (Nat × Nat) :=
  [(SPO2_SR_50, 50), (SPO2_SR_100, 100), (SPO2_SR_200, 200), (SPO2_SR_400, 400),
   (SPO2_SR_800, 800), (SPO2_SR_1000, 1000), (SPO2_SR_1600, 1600), (SPO2_SR_3200, 3200)]

/-- `_handle_spo2_config_write`: store the value with reserved bits cleared
(mask 0xFC) and decode the sample rate from bits 4-2 (default 100). -/
def _handle_spo2_config_write (s : I2CState) (value : Nat) : I2CState :=
  { reg_set s REG_SPO2_CONFIG (value &&& 0xFC) with
      sample_rate := some ((dict_lookup sample_rates_i2c ((value >>> 2) &&& 0x07)).getD 100) }

/-- `_handle_fifo_write_pointer`: store the value modulo `fifo_size * 6`. -/
def _handle_fifo_write_pointer (s : I2CState) (value : Nat) : I2CState :=
  reg_set s REG_FIFO_WR_PTR (value % (fifo_size * 6))

/-- `_handle_fifo_read_pointer`: store the value modulo `fifo_size * 6`. -/
def _handle_fifo_read_pointer (s : I2CState) (value : Nat) : I2CState :=
  reg_set s REG_FIFO_RD_PTR (value % (fifo_size * 6))

/-- `write_register`: bus check, known-address check, then dispatch to the
per-address side-effect handler (or a plain masked store), and finally count
the successful write. -/
def write_register (s : I2CState) (register value : Nat) : Bool × I2CState :=
  if !s.i2c_bus_available then (false, { s with errors := s.errors + 1 })
  else if !dict_contains s.registers register then (false, { s with errors := s.errors + 1 })
  else
    let s1 :=
      if register = REG_MODE_CONFIG then _handle_mode_config_write s value
      else if register = REG_FIFO_CONFIG then _handle_fifo_config_write s value
      else if register = REG_FIFO_WR_PTR then _handle_fifo_write_pointer s value
      else if register = REG_FIFO_RD_PTR then _handle_fifo_read_pointer s value
      else if register = REG_SPO2_CONFIG then _handle_spo2_config_write s value
      else reg_set s register (value &&& 0xFF)
    (true, { s1 with write_operations := s1.write_operations + 1 })

/-- `_handle_fifo_data_read`: 0x00 when the buffer list is empty or the queue
is logically empty (`rd_ptr == wr_ptr` with a zero overflow counter);
otherwise serve byte `rd_ptr % 6` of record `(rd_ptr / 6) % fifo_size` and
advance the read pointer modulo `fifo_size * 6`. -/
def _handle_fifo_data_read (s : I2CState) : Nat × I2CState :=
  if s.fifo_buffer.isEmpty then (0x00, s)
  else
    let rd_ptr := reg_get s REG_FIFO_RD_PTR
    let wr_ptr := reg_get s REG_FIFO_WR_PTR
    if rd_ptr = wr_ptr ∧ reg_get s REG_OVF_COUNTER = 0 then (0x00, s)
    else
      let sample_index := (rd_ptr / 6) % fifo_size
      let byte_index := rd_ptr % 6
      if sample_index < s.fifo_buffer.length then
        ((s.fifo_buffer.getD sample_index []).getD byte_index 0,
         reg_set s REG_FIFO_RD_PTR ((rd_ptr + 1) % (fifo_size * 6)))
      else (0x00, s)

/-- `_handle_interrupt_status_read`: return the current byte and clear it. -/
def _handle_interrupt_status_read (s : I2CState) : Nat × I2CState :=
  (reg_get s REG_INTR_STATUS_1, reg_set s REG_INTR_STATUS_1 0x00)

/-- `read_register`: bus check, known-address check, the two special read
behaviors (FIFO data, interrupt status), and the read-operation count. -/
def read_register (s : I2CState) (register : Nat) : Option Nat × I2CState :=
  if !s.i2c_bus_available then (none, { s with errors := s.errors + 1 })
  else if !dict_contains s.registers register then (none, { s with errors := s.errors + 1 })
  else
    if register = REG_FIFO_DATA then
      let r := _handle_fifo_data_read s
      (some r.1, { r.2 with read_operations := r.2.read_operations + 1 })
    else if register = REG_INTR_STATUS_1 then
      let r := _handle_interrupt_status_read s
      (some r.1, { r.2 with read_operations := r.2.read_operations + 1 })
    else (some (reg_get s register), { s with read_operations := s.read_operations + 1 })

/-- The `for i in range(count)` loop of `read_registers_burst`: known
addresses contribute their value (FIFO data through its handler), unknown
addresses contribute the placeholder 0x00. -/
def read_burst_loop : I2CState → Nat → Nat → List Nat × I2CState
  | s, _, 0 => ([], s)
  | s, register, n + 1 =>
    if dict_contains s.registers register then
      if register = REG_FIFO_DATA then
        let r := _handle_fifo_data_read s
        let rest := read_burst_loop r.2 (register + 1) n
        (r.1 :: rest.1, rest.2)
      else
        let rest := read_burst_loop s (register + 1) n
        (reg_get s register :: rest.1, rest.2)
    else
      let rest := read_burst_loop s (register + 1) n
      (0x00 :: rest.1, rest.2)

/-- `read_registers_burst`: bus check, the per-address loop, and one
read-operation count for the whole burst. -/
def read_registers_burst (s : I2CState) (start_register count : Nat) :
    Option (List Nat) × I2CState :=
  if !s.i2c_bus_available then (none, { s with errors := s.errors + 1 })
  else
    let r := read_burst_loop s start_register count
    (some r.1, { r.2 with read_operations := r.2.read_operations + 1 })

/-- The `for i, value in enumerate(values)` loop of `write_registers_burst`:
known addresses get the masked store followed by the mode-config or
fifo-config handler; unknown addresses are skipped. -/
def write_burst_loop : I2CState → Nat → List Nat → I2CState
  | s, _, [] => s
  | s, register, value :: rest =>
    let s1 :=
      if dict_contains s.registers register then
        let s0 := reg_set s register (value &&& 0xFF)
        if register = REG_MODE_CONFIG then _handle_mode_config_write s0 value
        else if register = REG_FIFO_CONFIG then _handle_fifo_config_write s0 value
        else s0
      else s
    write_burst_loop s1 (register + 1) rest

/-- `write_registers_burst`: bus check, the per-address loop, and one
write-operation count for the whole burst. -/
def write_registers_burst (s : I2CState) (start_register : Nat) (values : List Nat) :
    Bool × I2CState :=
  if !s.i2c_bus_available then (false, { s with errors := s.errors + 1 })
  else
    let s1 := write_burst_loop s start_register values
    (true, { s1 with write_operations := s1.write_operations + 1 })

/-- The 6-byte record built at the top of `push_sample_to_fifo`: for each of
the two samples, byte 0 carries bits 17-16, byte 1 bits 15-8, byte 2 bits
7-0. -/
def sample_record (red_sample ir_sample : Nat) : List Nat :=
  [(red_sample >>> 16) &&& 0x03, (red_sample >>> 8) &&& 0xFF, red_sample &&& 0xFF,
   (ir_sample >>> 16) &&& 0x03, (ir_sample >>> 8) &&& 0xFF, ir_sample &&& 0xFF]

/-- The Python expression `value & ~0x10` on a nonnegative integer: clear bit 4
(subtracting the masked bit is the infinite-width complement-and). -/
def and_not_16 (x : Nat) : Nat := x - (x &&& 0x10)

/-- `_update_fifo_pointers`: recompute the write pointer from the buffer
length and set or clear the almost-full interrupt bit 0x10 by comparing the
length against the low 4 bits of the FIFO-config register. -/
def _update_fifo_pointers (s : I2CState) : I2CState :=
  let samples_in_fifo := s.fifo_buffer.length
  let s1 := reg_set s REG_FIFO_WR_PTR ((samples_in_fifo * 6) % (fifo_size * 6))
  let fifo_almost_full_level := reg_get s1 REG_FIFO_CONFIG &&& 0x0F
  if samples_in_fifo ≥ fifo_almost_full_level then
    reg_set s1 REG_INTR_STATUS_1 (reg_get s1 REG_INTR_STATUS_1 ||| 0x10)
  else
    reg_set s1 REG_INTR_STATUS_1 (and_not_16 (reg_get s1 REG_INTR_STATUS_1))

/-- `push_sample_to_fifo`: on a full buffer bump the overflow counter modulo
32 and drop the oldest record, append the new 6-byte record, recompute the
pointers, and finally set interrupt bit 0x10 whenever the buffer is
non-empty. -/
def push_sample_to_fifo (s : I2CState) (red_sample ir_sample : Nat) : I2CState :=
  let sample_data := sample_record red_sample ir_sample
  let s1 :=
    if s.fifo_buffer.length ≥ fifo_size then
      { reg_set s REG_OVF_COUNTER ((reg_get s REG_OVF_COUNTER + 1) &&& 0x1F) with
          fifo_buffer := s.fifo_buffer.tail }
    else s
  let s2 := { s1 with fifo_buffer := s1.fifo_buffer ++ [sample_data] }
  let s3 := _update_fifo_pointers s2
  if s3.fifo_buffer.length > 0 then
    reg_set s3 REG_INTR_STATUS_1 (reg_get s3 REG_INTR_STATUS_1 ||| 0x10)
  else s3

/-- The unpacking step of `read_fifo_samples`: 6 bytes back to the two 18-bit
samples. -/
def unpack_sample (sample_data : List Nat) : Nat × Nat :=
  ((sample_data.getD 0 0 <<< 16) ||| (sample_data.getD 1 0 <<< 8) ||| sample_data.getD 2 0,
   (sample_data.getD 3 0 <<< 16) ||| (sample_data.getD 4 0 <<< 8) ||| sample_data.getD 5 0)

/-- The `for _ in range(min(sample_count, len(self.fifo_buffer)))` loop of
`read_fifo_samples`: pop the oldest record and unpack it, the given number of
times. -/
def pop_samples_loop : Nat → List (List Nat) → List (Nat × Nat) × List (List Nat)
  | 0, buf => ([], buf)
  | _ + 1, [] => ([], [])
  | n + 1, sample_data :: rest =>
    let r := pop_samples_loop n rest
    (unpack_sample sample_data :: r.1, r.2)

/-- `read_fifo_samples`: drain `min(sample_count, len)` oldest records in
order, then recompute the FIFO pointers. -/
def read_fifo_samples (s : I2CState) (sample_count : Nat) :
    List (Nat × Nat) × I2CState :=
  let r := pop_samples_loop (min sample_count s.fifo_buffer.length) s.fifo_buffer
  (r.1, _update_fifo_pointers { s with fifo_buffer := r.2 })

/-- `set_bus_availability`. -/
def set_bus_availability (s : I2CState) (available : Bool) : I2CState :=
  { s with i2c_bus_available := available }

/-- The fields of the `get_device_status` dictionary that carry device state
(the address string is omitted; the power state is embedded as the shutdown
flag that selects between the two strings). -/
structure DeviceStatus where
  fifo_samples : Nat
  sample_rate : Nat
  averaging_samples : Nat
  fifo_rollover : Bool
  read_operations : Nat
  write_operations : Nat
  error_count : Nat
  operating_mode : Nat
  shutdown : Bool
deriving Repr, DecidableEq

/-- `get_device_status`: the `getattr(..., default)` calls become `Option.getD`. -/
def get_device_status (s : I2CState) : DeviceStatus :=
  { fifo_samples := s.fifo_buffer.length,
    sample_rate := s.sample_rate.getD 100,
    averaging_samples := s.averaging_samples.getD 1,
    fifo_rollover := s.fifo_rollover.getD true,
    read_operations := s.read_operations,
    write_operations := s.write_operations,
    error_count := s.errors,
    operating_mode := reg_get s REG_MODE_CONFIG &&& 0x07,
    shutdown := reg_get s REG_MODE_CONFIG &&& 0x80 ≠ 0 }

/-- The state built by `__init__`: default register table, then the
direct constructor stores of SpO2 mode and the 0x27 SpO2 configuration. -/
def initial_state : I2CState :=
  { registers := dict_set (dict_set DEFAULT_REGISTER_VALUES REG_MODE_CONFIG MODE_SPO2)
                   REG_SPO2_CONFIG 0x27,
    fifo_buffer := [],
    i2c_bus_available := true,
    read_operations := 0,
    write_operations := 0,
    errors := 0,
    sample_rate := none,
    averaging_samples := none,
    fifo_rollover := none }

/-- The `sample_rates` dict literal in `MAX30102Device.get_sample_rate`
(`src/simulator/max30102_device.py`). -/
def sample_rates_device : List (Nat × Nat) :=
  [(SPO2_SR_50, 50), (SPO2_SR_100, 100), (SPO2_SR_200, 200), (SPO2_SR_400, 400),
   (SPO2_SR_800, 800), (SPO2_SR_1000, 1000), (SPO2_SR_1600, 1600), (SPO2_SR_3200, 3200)]

/-- `MAX30102Device.get_sample_rate`, as a function of the register
dict: decode bits 4-2 of the stored SpO2 configuration (default 100). -/
def device_get_sample_rate (registers : List (Nat × Nat)) : Nat :=
  let spo2_config := (dict_lookup registers REG_SPO2_CONFIG).getD 0
  let sr_bits := (spo2_config >>> 2) &&& 0x07
  (dict_lookup sample_rates_device sr_bits).getD 100

/-- Iterated pushes, for the properties quantifying over push sequences. -/
def push_list (s : I2CState) (l : List (Nat × Nat)) : I2CState :=
  l.foldl (fun t p => push_sample_to_fifo t p.1 p.2) s

end MAX30102

namespace MAX30102

/-! ### Association-list dictionary lemmas -/

theorem dict_lookup_set_self (m : List (Nat × Nat)) (k v : Nat) :
    dict_lookup (dict_set m k v) k = some v := by
  induction m with
  | nil => simp [dict_set, dict_lookup]
  | cons p rest ih =>
    obtain ⟨pk, pv⟩ := p
    by_cases hp : pk = k
    · subst hp
      simp [dict_set, dict_lookup]
    · simp [dict_set, dict_lookup, hp, ih]

theorem dict_lookup_set_ne (m : List (Nat × Nat)) (k v a : Nat) (h : a ≠ k) :
    dict_lookup (dict_set m k v) a = dict_lookup m a := by
  have hk : ¬ (k = a) := fun hk => h hk.symm
  induction m with
  | nil => simp [dict_set, dict_lookup, hk]
  | cons p rest ih =>
    obtain ⟨pk, pv⟩ := p
    by_cases hp : pk = k
    · subst hp
      simp [dict_set, dict_lookup, hk]
    · by_cases hpa : pk = a
      · subst hpa
        simp [dict_set, dict_lookup, hp]
      · simp [dict_set, dict_lookup, hp, hpa, ih]

theorem dict_contains_eq_false_iff (m : List (Nat × Nat)) (a : Nat) :
    dict_contains m a = false ↔ dict_lookup m a = none := by
  unfold dict_contains
  cases dict_lookup m a <;> simp

theorem dict_contains_set_of (m : List (Nat × Nat)) (k v a : Nat)
    (h : dict_contains m k = true) :
    dict_contains (dict_set m k v) a = dict_contains m a := by
  induction m with
  | nil => simp [dict_contains, dict_lookup] at h
  | cons p rest ih =>
    obtain ⟨pk, pv⟩ := p
    by_cases hp : pk = k
    · subst hp
      by_cases hpa : pk = a <;> simp [dict_contains, dict_set, dict_lookup, hpa]
    · have h' : dict_contains rest k = true := by
        simpa [dict_contains, dict_lookup, hp] using h
      by_cases hpa : pk = a
      · subst hpa
        simp [dict_contains, dict_set, dict_lookup, hp]
      · have := ih h'
        simp only [dict_contains] at this
        simp [dict_contains, dict_set, dict_lookup, hp, hpa, this]

end MAX30102

namespace MAX30102

/-! ### Bitmask arithmetic helpers -/

theorem land_31_eq_mod (x : Nat) : x &&& 0x1F = x % 32 :=
  Nat.and_pow_two_sub_one_eq_mod x 5

/-! ### Invariance of the state helpers -/

theorem update_fifo_pointers_buffer (s : I2CState) :
    (_update_fifo_pointers s).fifo_buffer = s.fifo_buffer := by
  unfold _update_fifo_pointers reg_set
  dsimp only
  split <;> rfl

theorem update_fifo_pointers_lookup (s : I2CState) (a : Nat)
    (h1 : a ≠ REG_FIFO_WR_PTR) (h2 : a ≠ REG_INTR_STATUS_1) :
    dict_lookup (_update_fifo_pointers s).registers a = dict_lookup s.registers a := by
  unfold _update_fifo_pointers reg_set
  dsimp only
  split <;>
    simp only [dict_lookup_set_ne _ _ _ _ h2, dict_lookup_set_ne _ _ _ _ h1]

theorem push_fifo_buffer (s : I2CState) (red ir : Nat) :
    (push_sample_to_fifo s red ir).fifo_buffer =
      (if s.fifo_buffer.length ≥ fifo_size then s.fifo_buffer.tail else s.fifo_buffer)
        ++ [sample_record red ir] := by
  unfold push_sample_to_fifo
  by_cases h : s.fifo_buffer.length ≥ fifo_size <;>
    simp [h, reg_set, update_fifo_pointers_buffer]

theorem push_lookup_other (s : I2CState) (red ir a : Nat)
    (h0 : a ≠ REG_OVF_COUNTER) (h1 : a ≠ REG_FIFO_WR_PTR) (h2 : a ≠ REG_INTR_STATUS_1) :
    dict_lookup (push_sample_to_fifo s red ir).registers a = dict_lookup s.registers a := by
  unfold push_sample_to_fifo
  by_cases h : s.fifo_buffer.length ≥ fifo_size <;>
    simp [h, reg_set, update_fifo_pointers_buffer,
      dict_lookup_set_ne _ _ _ _ h0, dict_lookup_set_ne _ _ _ _ h1,
      dict_lookup_set_ne _ _ _ _ h2, update_fifo_pointers_lookup _ _ h1 h2]

theorem push_lookup_ovf_of_lt (s : I2CState) (red ir : Nat)
    (h : s.fifo_buffer.length < fifo_size) :
    dict_lookup (push_sample_to_fifo s red ir).registers REG_OVF_COUNTER
      = dict_lookup s.registers REG_OVF_COUNTER := by
  have h' : ¬ (s.fifo_buffer.length ≥ fifo_size) := Nat.not_le.mpr h
  unfold push_sample_to_fifo
  simp [h', reg_set, update_fifo_pointers_buffer,
    dict_lookup_set_ne _ _ _ _ (show REG_OVF_COUNTER ≠ REG_INTR_STATUS_1 by decide),
    update_fifo_pointers_lookup _ _ (show REG_OVF_COUNTER ≠ REG_FIFO_WR_PTR by decide)
      (show REG_OVF_COUNTER ≠ REG_INTR_STATUS_1 by decide)]

theorem push_lookup_ovf_of_full (s : I2CState) (red ir : Nat)
    (h : s.fifo_buffer.length ≥ fifo_size) :
    dict_lookup (push_sample_to_fifo s red ir).registers REG_OVF_COUNTER
      = some ((reg_get s REG_OVF_COUNTER + 1) &&& 0x1F) := by
  unfold push_sample_to_fifo
  simp [h, reg_set, update_fifo_pointers_buffer,
    dict_lookup_set_ne _ _ _ _ (show REG_OVF_COUNTER ≠ REG_INTR_STATUS_1 by decide),
    update_fifo_pointers_lookup _ _ (show REG_OVF_COUNTER ≠ REG_FIFO_WR_PTR by decide)
      (show REG_OVF_COUNTER ≠ REG_INTR_STATUS_1 by decide),
    dict_lookup_set_self]

/-- The constructor only overwrites keys already present in the default table,
so the key set of `initial_state` is the key set of the default table. -/
theorem initial_state_keys (a : Nat) :
    dict_contains initial_state.registers a = dict_contains DEFAULT_REGISTER_VALUES a := by
  show dict_contains (dict_set (dict_set DEFAULT_REGISTER_VALUES REG_MODE_CONFIG MODE_SPO2)
    REG_SPO2_CONFIG 0x27) a = _
  rw [dict_contains_set_of, dict_contains_set_of]
  · decide
  · rw [dict_contains_set_of] <;> decide

/-! ### C1, C2, C3 -/

/-- C1: the claim says that a mode-config write with the reset bit 0x40
restores the default register table, empties the FIFO, and leaves all three
operation counters at zero when the call returns.  The code (and the in-repo
own `test_device_reset`) indeed intend all three counters to be zero, and
`_handle_device_reset` zeroes them, but `write_register` then executes
`self.write_operations += 1` after the handler returns, so the write counter
is 1, not 0, immediately after the call.  This theorem evaluates the model at
the failing input: a reset write on the freshly constructed peripheral. -/
theorem reset_write_leaves_one_write_operation :
    (write_register initial_state REG_MODE_CONFIG 0x40).1 = true ∧
    (write_register initial_state REG_MODE_CONFIG 0x40).2.registers = DEFAULT_REGISTER_VALUES ∧
    (write_register initial_state REG_MODE_CONFIG 0x40).2.fifo_buffer = [] ∧
    (write_register initial_state REG_MODE_CONFIG 0x40).2.read_operations = 0 ∧
    (write_register initial_state REG_MODE_CONFIG 0x40).2.errors = 0 ∧
    (write_register initial_state REG_MODE_CONFIG 0x40).2.write_operations = 1 := by
  decide

/-- C2: for an address outside the known register set (the key set of every
reachable register file equals the key set of the default table), `write_register`
fails for every value, `read_register` fails, and the register mapping is
returned unchanged, so in particular no new cell is created. -/
theorem invalid_address_rejected (s : I2CState) (addr value : Nat)
    (hkeys : ∀ a, dict_contains s.registers a = dict_contains DEFAULT_REGISTER_VALUES a)
    (h : dict_contains DEFAULT_REGISTER_VALUES addr = false) :
    (write_register s addr value).1 = false ∧
    (write_register s addr value).2.registers = s.registers ∧
    (read_register s addr).1 = none ∧
    (read_register s addr).2.registers = s.registers := by
  have hc : dict_contains s.registers addr = false := (hkeys addr).trans h
  unfold write_register read_register
  cases hb : s.i2c_bus_available <;> simp [hb, hc]

theorem invalid_address_rejected_witness :
    (write_register initial_state 0x50 0x12).1 = false ∧
    (write_register initial_state 0x50 0x12).2.registers = initial_state.registers ∧
    (read_register initial_state 0x50).1 = none ∧
    (read_register initial_state 0x50).2.registers = initial_state.registers :=
  invalid_address_rejected initial_state 0x50 0x12 initial_state_keys (by decide)

/-- C3: with the bus-availability flag false, each of the four bus operations
fails with its failure value, increments the error counter by exactly one,
and leaves both the register mapping and the FIFO buffer unchanged. -/
theorem bus_unavailable_fails (s : I2CState) (h : s.i2c_bus_available = false) :
    (∀ register value,
      (write_register s register value).1 = false ∧
      (write_register s register value).2.errors = s.errors + 1 ∧
      (write_register s register value).2.registers = s.registers ∧
      (write_register s register value).2.fifo_buffer = s.fifo_buffer) ∧
    (∀ register,
      (read_register s register).1 = none ∧
      (read_register s register).2.errors = s.errors + 1 ∧
      (read_register s register).2.registers = s.registers ∧
      (read_register s register).2.fifo_buffer = s.fifo_buffer) ∧
    (∀ start_register count,
      (read_registers_burst s start_register count).1 = none ∧
      (read_registers_burst s start_register count).2.errors = s.errors + 1 ∧
      (read_registers_burst s start_register count).2.registers = s.registers ∧
      (read_registers_burst s start_register count).2.fifo_buffer = s.fifo_buffer) ∧
    (∀ start_register values,
      (write_registers_burst s start_register values).1 = false ∧
      (write_registers_burst s start_register values).2.errors = s.errors + 1 ∧
      (write_registers_burst s start_register values).2.registers = s.registers ∧
      (write_registers_burst s start_register values).2.fifo_buffer = s.fifo_buffer) := by
  refine ⟨fun register value => ?_, fun register => ?_,
    fun start_register count => ?_, fun start_register values => ?_⟩ <;>
    simp [write_register, read_register, read_registers_burst, write_registers_burst, h]

theorem bus_unavailable_fails_witness :
    (set_bus_availability initial_state false).i2c_bus_available = false ∧
    ((write_register (set_bus_availability initial_state false) REG_LED1_PA 0x24).1 = false ∧
     (write_register (set_bus_availability initial_state false) REG_LED1_PA 0x24).2.errors
        = (set_bus_availability initial_state false).errors + 1 ∧
     (write_register (set_bus_availability initial_state false) REG_LED1_PA 0x24).2.registers
        = (set_bus_availability initial_state false).registers ∧
     (write_register (set_bus_availability initial_state false) REG_LED1_PA 0x24).2.fifo_buffer
        = (set_bus_availability initial_state false).fifo_buffer) ∧
    ((read_register (set_bus_availability initial_state false) REG_LED1_PA).1 = none) :=
  ⟨rfl,
   (bus_unavailable_fails (set_bus_availability initial_state false) rfl).1 REG_LED1_PA 0x24,
   ((bus_unavailable_fails (set_bus_availability initial_state false) rfl).2.1 REG_LED1_PA).1⟩

end MAX30102

namespace MAX30102

/-! ### C5: sample packing -/

theorem pack3_eq (v : Nat) :
    (((v >>> 16) &&& 0x03) <<< 16) ||| (((v >>> 8) &&& 0xFF) <<< 8) ||| (v &&& 0xFF)
      = v % 2 ^ 18 := by
  have hA : (v >>> 16) &&& 0x03 = v / 65536 % 4 := by
    rw [Nat.shiftRight_eq_div_pow]
    exact Nat.and_pow_two_sub_one_eq_mod (v / 2 ^ 16) 2
  have hB : (v >>> 8) &&& 0xFF = v / 256 % 256 := by
    rw [Nat.shiftRight_eq_div_pow]
    exact Nat.and_pow_two_sub_one_eq_mod (v / 2 ^ 8) 8
  have hC : v &&& 0xFF = v % 256 := Nat.and_pow_two_sub_one_eq_mod v 8
  rw [hA, hB, hC, Nat.shiftLeft_eq, Nat.shiftLeft_eq]
  have h1 : (v / 65536 % 4) * 2 ^ 16 ||| (v / 256 % 256) * 2 ^ 8
      = (v / 65536 % 4) * 2 ^ 16 + (v / 256 % 256) * 2 ^ 8 := by
    have hb : (v / 256 % 256) * 2 ^ 8 < 2 ^ 16 := by
      have := Nat.mod_lt (v / 256) (show 0 < 256 by norm_num)
      omega
    rw [Nat.mul_comm (v / 65536 % 4) (2 ^ 16)]
    exact (@Nat.mul_add_lt_is_or 16 ((v / 256 % 256) * 2 ^ 8) hb (v / 65536 % 4)).symm
  rw [h1]
  have h2 : (v / 65536 % 4) * 2 ^ 16 + (v / 256 % 256) * 2 ^ 8
      = 2 ^ 8 * ((v / 65536 % 4) * 2 ^ 8 + v / 256 % 256) := by ring
  rw [h2]
  have hc : v % 256 < 2 ^ 8 := Nat.mod_lt v (show 0 < 256 by norm_num)
  rw [(@Nat.mul_add_lt_is_or 8 (v % 256) hc ((v / 65536 % 4) * 2 ^ 8 + v / 256 % 256)).symm]
  have e16 : (2 : Nat) ^ 16 = 65536 := by norm_num
  have e8 : (2 : Nat) ^ 8 = 256 := by norm_num
  have e18 : (2 : Nat) ^ 18 = 262144 := by norm_num
  rw [e8, e18]
  omega

/-- C5: unpacking the 6-byte record built by `push_sample_to_fifo` always
reproduces the two inputs truncated to their low 18 bits; in particular the
round trip is exact for 18-bit inputs and the unpacked values never exceed 18
bits. -/
theorem sample_packing_round_trip (red ir : Nat) :
    unpack_sample (sample_record red ir) = (red % 2 ^ 18, ir % 2 ^ 18) ∧
    (red < 2 ^ 18 → ir < 2 ^ 18 → unpack_sample (sample_record red ir) = (red, ir)) ∧
    (unpack_sample (sample_record red ir)).1 < 2 ^ 18 ∧
    (unpack_sample (sample_record red ir)).2 < 2 ^ 18 := by
  have h : unpack_sample (sample_record red ir) = (red % 2 ^ 18, ir % 2 ^ 18) := by
    have hform : unpack_sample (sample_record red ir)
        = ((((red >>> 16) &&& 0x03) <<< 16) ||| (((red >>> 8) &&& 0xFF) <<< 8) ||| (red &&& 0xFF),
           (((ir >>> 16) &&& 0x03) <<< 16) ||| (((ir >>> 8) &&& 0xFF) <<< 8) ||| (ir &&& 0xFF)) := rfl
    rw [hform, pack3_eq, pack3_eq]
  refine ⟨h, fun h1 h2 => ?_, ?_, ?_⟩
  · rw [h, Nat.mod_eq_of_lt h1, Nat.mod_eq_of_lt h2]
  · rw [h]
    exact Nat.mod_lt _ (by norm_num)
  · rw [h]
    exact Nat.mod_lt _ (by norm_num)

theorem sample_packing_round_trip_witness :
    unpack_sample (sample_record 262143 300000) = (262143 % 2 ^ 18, 300000 % 2 ^ 18) ∧
    (262143 < 2 ^ 18 → 300000 < 2 ^ 18 →
      unpack_sample (sample_record 262143 300000) = (262143, 300000)) ∧
    (unpack_sample (sample_record 262143 300000)).1 < 2 ^ 18 ∧
    (unpack_sample (sample_record 262143 300000)).2 < 2 ^ 18 :=
  sample_packing_round_trip 262143 300000

end MAX30102

namespace MAX30102

/-! ### C4: FIFO overflow -/

theorem push_list_cons (s : I2CState) (p : Nat × Nat) (l : List (Nat × Nat)) :
    push_list s (p :: l) = push_list (push_sample_to_fifo s p.1 p.2) l := rfl

theorem push_list_below_capacity (l : List (Nat × Nat)) :
    ∀ s : I2CState, s.fifo_buffer.length + l.length ≤ fifo_size →
      (push_list s l).fifo_buffer
          = s.fifo_buffer ++ l.map (fun p => sample_record p.1 p.2) ∧
      dict_lookup (push_list s l).registers REG_OVF_COUNTER
          = dict_lookup s.registers REG_OVF_COUNTER := by
  induction l with
  | nil =>
    intro s h
    simp [push_list]
  | cons p rest ih =>
    intro s h
    have hlt : s.fifo_buffer.length < fifo_size := by
      simp only [List.length_cons] at h
      omega
    have hbuf : (push_sample_to_fifo s p.1 p.2).fifo_buffer
        = s.fifo_buffer ++ [sample_record p.1 p.2] := by
      rw [push_fifo_buffer, if_neg (Nat.not_le.mpr hlt)]
    have hlen : (push_sample_to_fifo s p.1 p.2).fifo_buffer.length + rest.length ≤ fifo_size := by
      rw [hbuf]
      simp only [List.length_append, List.length_cons] at h ⊢
      simp only [List.length_nil]
      omega
    have hrec := ih (push_sample_to_fifo s p.1 p.2) hlen
    rw [push_list_cons]
    refine ⟨?_, ?_⟩
    · rw [hrec.1, hbuf, List.append_assoc]
      rfl
    · rw [hrec.2, push_lookup_ovf_of_lt _ _ _ hlt]

theorem push_list_at_capacity (l : List (Nat × Nat)) :
    ∀ (s : I2CState) (o : Nat), s.fifo_buffer.length = fifo_size →
      dict_lookup s.registers REG_OVF_COUNTER = some o → o + l.length ≤ 31 →
      (push_list s l).fifo_buffer
          = s.fifo_buffer.drop l.length ++ l.map (fun p => sample_record p.1 p.2) ∧
      dict_lookup (push_list s l).registers REG_OVF_COUNTER = some (o + l.length) := by
  induction l with
  | nil =>
    intro s o h1 h2 h3
    simpa [push_list] using h2
  | cons p rest ih =>
    intro s o hlen hovf hbound
    have hge : s.fifo_buffer.length ≥ fifo_size := Nat.le_of_eq hlen.symm
    have hbuf : (push_sample_to_fifo s p.1 p.2).fifo_buffer
        = s.fifo_buffer.tail ++ [sample_record p.1 p.2] := by
      rw [push_fifo_buffer, if_pos hge]
    have hpos : 0 < s.fifo_buffer.length := by
      rw [hlen]
      decide
    have hlen' : (push_sample_to_fifo s p.1 p.2).fifo_buffer.length = fifo_size := by
      rw [hbuf]
      simp only [List.length_append, List.length_tail, List.length_cons, List.length_nil, hlen]
      decide
    have hovf' : dict_lookup (push_sample_to_fifo s p.1 p.2).registers REG_OVF_COUNTER
        = some (o + 1) := by
      rw [push_lookup_ovf_of_full _ _ _ hge]
      have hg : reg_get s REG_OVF_COUNTER = o := by
        unfold reg_get
        rw [hovf]
        rfl
      rw [hg, land_31_eq_mod, Nat.mod_eq_of_lt (by simp only [List.length_cons] at hbound; omega)]
    have hbound' : (o + 1) + rest.length ≤ 31 := by
      simp only [List.length_cons] at hbound
      omega
    have hrec := ih (push_sample_to_fifo s p.1 p.2) (o + 1) hlen' hovf' hbound'
    rw [push_list_cons]
    refine ⟨?_, ?_⟩
    · rw [hrec.1, hbuf, List.drop_append_of_le_length, List.drop_tail, List.append_assoc]
      · simp only [List.length_cons]
        rfl
      · simp only [List.length_tail, hlen]
        simp only [List.length_cons] at hbound
        change rest.length ≤ 32 - 1
        omega
    · rw [hrec.2]
      simp only [List.length_cons]
      congr 1
      omega

/-- C4: pushing 37 records into the empty FIFO (overflow counter 0) retains
exactly the 32 most recent records in order, evicting the 5 oldest, and
leaves the overflow counter register at 5 mod 32; and in general a push onto
a full FIFO drops the oldest record (index 0), appends the new record, and
increments the overflow counter modulo 32. -/
theorem fifo_overflow_behavior (l : List (Nat × Nat)) (s : I2CState)
    (hbuf : s.fifo_buffer = [])
    (hovf : dict_lookup s.registers REG_OVF_COUNTER = some 0)
    (hlen : l.length = 37) :
    ((push_list s l).fifo_buffer.length = 32 ∧
     (push_list s l).fifo_buffer = (l.drop 5).map (fun p => sample_record p.1 p.2) ∧
     dict_lookup (push_list s l).registers REG_OVF_COUNTER = some (5 % 32)) ∧
    (∀ (t : I2CState) (red ir o : Nat),
      t.fifo_buffer.length = fifo_size →
      dict_lookup t.registers REG_OVF_COUNTER = some o →
      (push_sample_to_fifo t red ir).fifo_buffer
          = t.fifo_buffer.tail ++ [sample_record red ir] ∧
      dict_lookup (push_sample_to_fifo t red ir).registers REG_OVF_COUNTER
          = some ((o + 1) % 32)) := by
  constructor
  · have hsplit : l = l.take 32 ++ l.drop 32 := (List.take_append_drop 32 l).symm
    have h32 : (l.take 32).length = 32 := List.length_take_of_le (by omega)
    have h5 : (l.drop 32).length = 5 := by
      rw [List.length_drop, hlen]
    have hphase1 := push_list_below_capacity (l.take 32) s (by rw [hbuf, h32]; decide)
    have hlen32 : (push_list s (l.take 32)).fifo_buffer.length = fifo_size := by
      rw [hphase1.1, hbuf, List.nil_append, List.length_map, h32]
      rfl
    have hovf32 : dict_lookup (push_list s (l.take 32)).registers REG_OVF_COUNTER = some 0 := by
      rw [hphase1.2, hovf]
    have hphase2 := push_list_at_capacity (l.drop 32) (push_list s (l.take 32)) 0
      hlen32 hovf32 (by rw [h5]; decide)
    have happend : push_list s l = push_list (push_list s (l.take 32)) (l.drop 32) := by
      conv_lhs => rw [hsplit]
      unfold push_list
      rw [List.foldl_append]
    have hfifo : (push_list s l).fifo_buffer = (l.drop 5).map (fun p => sample_record p.1 p.2) := by
      rw [happend, hphase2.1, hphase1.1, hbuf, List.nil_append, h5]
      have hd : (l.take 32).drop 5 ++ l.drop 32 = l.drop 5 := by
        conv_rhs => rw [hsplit]
        rw [List.drop_append_of_le_length (by rw [h32]; omega)]
      rw [← List.map_drop, ← List.map_append, hd]
    refine ⟨?_, hfifo, ?_⟩
    · rw [hfifo, List.length_map, List.length_drop, hlen]
    · rw [happend, hphase2.2, h5]
  · intro t red ir o hlen32 hovf32
    have hge : t.fifo_buffer.length ≥ fifo_size := Nat.le_of_eq hlen32.symm
    refine ⟨?_, ?_⟩
    · rw [push_fifo_buffer, if_pos hge]
    · rw [push_lookup_ovf_of_full _ _ _ hge]
      have hg : reg_get t REG_OVF_COUNTER = o := by
        unfold reg_get
        rw [hovf32]
        rfl
      rw [hg, land_31_eq_mod]

theorem fifo_overflow_behavior_witness :
    (((push_list initial_state (List.replicate 37 (1, 2))).fifo_buffer.length = 32 ∧
      (push_list initial_state (List.replicate 37 (1, 2))).fifo_buffer
          = ((List.replicate 37 (1, 2)).drop 5).map (fun p => sample_record p.1 p.2) ∧
      dict_lookup (push_list initial_state (List.replicate 37 (1, 2))).registers
          REG_OVF_COUNTER = some (5 % 32)) ∧
     (∀ (t : I2CState) (red ir o : Nat),
       t.fifo_buffer.length = fifo_size →
       dict_lookup t.registers REG_OVF_COUNTER = some o →
       (push_sample_to_fifo t red ir).fifo_buffer
           = t.fifo_buffer.tail ++ [sample_record red ir] ∧
       dict_lookup (push_sample_to_fifo t red ir).registers REG_OVF_COUNTER
           = some ((o + 1) % 32))) :=
  fifo_overflow_behavior (List.replicate 37 (1, 2)) initial_state rfl (by decide) (by decide)

end MAX30102

namespace MAX30102

/-! ### C6: FIFO round trip -/

theorem pop_samples_loop_spec (n : Nat) :
    ∀ buf : List (List Nat), n ≤ buf.length →
      pop_samples_loop n buf = ((buf.take n).map unpack_sample, buf.drop n) := by
  induction n with
  | zero =>
    intro buf h
    simp [pop_samples_loop]
  | succ n ih =>
    intro buf h
    cases buf with
    | nil => simp at h
    | cons b rest =>
      have hr := ih rest (by simpa using h)
      simp [pop_samples_loop, hr]

/-- C6: pushing the two records (10000,9500) and (11000,10500) into an empty
FIFO and reading two samples returns exactly those pairs in push order and
leaves the FIFO empty (status reports 0 samples); in general
`read_fifo_samples` removes and returns the `min(count, length)` oldest whole
records in push order. -/
theorem fifo_round_trip (s : I2CState) (h : s.fifo_buffer = []) :
    (read_fifo_samples (push_sample_to_fifo (push_sample_to_fifo s 10000 9500) 11000 10500) 2).1
        = [(10000, 9500), (11000, 10500)] ∧
    (get_device_status
      (read_fifo_samples (push_sample_to_fifo (push_sample_to_fifo s 10000 9500) 11000 10500)
        2).2).fifo_samples = 0 ∧
    (∀ (t : I2CState) (count : Nat),
      (read_fifo_samples t count).1
          = (t.fifo_buffer.take (min count t.fifo_buffer.length)).map unpack_sample ∧
      (read_fifo_samples t count).2.fifo_buffer
          = t.fifo_buffer.drop (min count t.fifo_buffer.length)) := by
  have hgen : ∀ (t : I2CState) (count : Nat),
      (read_fifo_samples t count).1
          = (t.fifo_buffer.take (min count t.fifo_buffer.length)).map unpack_sample ∧
      (read_fifo_samples t count).2.fifo_buffer
          = t.fifo_buffer.drop (min count t.fifo_buffer.length) := by
    intro t count
    have hm : min count t.fifo_buffer.length ≤ t.fifo_buffer.length := Nat.min_le_right _ _
    unfold read_fifo_samples
    rw [pop_samples_loop_spec _ _ hm]
    exact ⟨rfl, update_fifo_pointers_buffer _⟩
  have hb1 : (push_sample_to_fifo s 10000 9500).fifo_buffer = [sample_record 10000 9500] := by
    rw [push_fifo_buffer, h]
    rfl
  have hb2 : (push_sample_to_fifo (push_sample_to_fifo s 10000 9500) 11000 10500).fifo_buffer
      = [sample_record 10000 9500, sample_record 11000 10500] := by
    rw [push_fifo_buffer, hb1]
    rfl
  refine ⟨?_, ?_, hgen⟩
  · rw [(hgen _ 2).1, hb2]
    decide
  · show (read_fifo_samples (push_sample_to_fifo (push_sample_to_fifo s 10000 9500) 11000 10500)
      2).2.fifo_buffer.length = 0
    rw [(hgen _ 2).2, hb2]
    rfl

theorem fifo_round_trip_witness :
    (read_fifo_samples (push_sample_to_fifo (push_sample_to_fifo initial_state 10000 9500)
        11000 10500) 2).1 = [(10000, 9500), (11000, 10500)] ∧
    (get_device_status (read_fifo_samples
      (push_sample_to_fifo (push_sample_to_fifo initial_state 10000 9500) 11000 10500)
        2).2).fifo_samples = 0 ∧
    (∀ (t : I2CState) (count : Nat),
      (read_fifo_samples t count).1
          = (t.fifo_buffer.take (min count t.fifo_buffer.length)).map unpack_sample ∧
      (read_fifo_samples t count).2.fifo_buffer
          = t.fifo_buffer.drop (min count t.fifo_buffer.length)) :=
  fifo_round_trip initial_state rfl

/-! ### C7: the almost-full interrupt bit after a push -/

theorem reg_get_set_self (s : I2CState) (k v : Nat) : reg_get (reg_set s k v) k = v := by
  unfold reg_get reg_set
  rw [dict_lookup_set_self]
  rfl

theorem or_16_and_16 (v : Nat) : (v ||| 0x10) &&& 0x10 = 0x10 := by
  apply Nat.eq_of_testBit_eq
  intro j
  simp only [Nat.testBit_and, Nat.testBit_or]
  cases hb : Nat.testBit 0x10 j <;> simp [hb]

/-- A state whose FIFO-config register sets the almost-full threshold to 15
while the FIFO is empty: the input on which the claimed iff fails. -/
def below_threshold_state : I2CState :=
  { registers := dict_set DEFAULT_REGISTER_VALUES REG_FIFO_CONFIG 0x0F,
    fifo_buffer := [],
    i2c_bus_available := true,
    read_operations := 0,
    write_operations := 0,
    errors := 0,
    sample_rate := none,
    averaging_samples := none,
    fifo_rollover := none }

/-- C7 counterexample: with the almost-full threshold configured to 15,
pushing one record leaves the FIFO at length 1 < 15, yet interrupt bit 4 is
set — the claimed "cleared otherwise" direction of the iff is false, because
`push_sample_to_fifo` unconditionally sets the bit after
`_update_fifo_pointers` whenever the buffer is non-empty. -/
theorem almost_full_bit_counterexample :
    ¬ ((reg_get (push_sample_to_fifo below_threshold_state 0 0) REG_INTR_STATUS_1 &&& 0x10 ≠ 0) ↔
        (push_sample_to_fifo below_threshold_state 0 0).fifo_buffer.length ≥
          (reg_get (push_sample_to_fifo below_threshold_state 0 0) REG_FIFO_CONFIG &&& 0x0F)) := by
  decide

/-- C7 amended: after every push `_update_fifo_pointers` recomputes bit 4
from the threshold comparison, but `push_sample_to_fifo` then sets bit 4
unconditionally because the buffer is non-empty after the append; so bit 4 of
the interrupt-status register is always set after a push, even when the
length is below the configured almost-full threshold. -/
theorem almost_full_bit_after_push (s : I2CState) (red ir : Nat) :
    reg_get (push_sample_to_fifo s red ir) REG_INTR_STATUS_1 &&& 0x10 = 0x10 := by
  unfold push_sample_to_fifo
  dsimp only
  rw [if_pos ?hpos]
  case hpos =>
    rw [update_fifo_pointers_buffer]
    simp
  rw [reg_get_set_self, or_16_and_16]

end MAX30102

namespace MAX30102

/-! ### C8: single FIFO-data register read -/

/-- C8: a FIFO-data read returns 0x00 and changes nothing when the queue is
logically empty (`rd_ptr == wr_ptr` with overflow counter 0); otherwise, when
the read cursor addresses a stored record, it returns byte `rd mod 6` of
record `rd div 6` and advances the read pointer by one modulo
`fifo_size * 6 = 192`. -/
theorem fifo_data_read_semantics (s : I2CState) (rd wr ovf : Nat)
    (hrd : dict_lookup s.registers REG_FIFO_RD_PTR = some rd)
    (hwr : dict_lookup s.registers REG_FIFO_WR_PTR = some wr)
    (hovf : dict_lookup s.registers REG_OVF_COUNTER = some ovf)
    (hcap : s.fifo_buffer.length ≤ fifo_size) :
    (rd = wr ∧ ovf = 0 → _handle_fifo_data_read s = (0x00, s)) ∧
    (¬ (rd = wr ∧ ovf = 0) → rd / 6 < s.fifo_buffer.length →
      (_handle_fifo_data_read s).1
          = (s.fifo_buffer.getD (rd / 6) []).getD (rd % 6) 0 ∧
      dict_lookup (_handle_fifo_data_read s).2.registers REG_FIFO_RD_PTR
          = some ((rd + 1) % (fifo_size * 6))) := by
  have hg_rd : reg_get s REG_FIFO_RD_PTR = rd := by
    unfold reg_get
    rw [hrd]
    rfl
  have hg_wr : reg_get s REG_FIFO_WR_PTR = wr := by
    unfold reg_get
    rw [hwr]
    rfl
  have hg_ovf : reg_get s REG_OVF_COUNTER = ovf := by
    unfold reg_get
    rw [hovf]
    rfl
  constructor
  · rintro ⟨h1, h2⟩
    unfold _handle_fifo_data_read
    by_cases hb : s.fifo_buffer.isEmpty
    · rw [if_pos hb]
    · rw [if_neg hb]
      dsimp only
      rw [hg_rd, hg_wr, hg_ovf, if_pos (⟨h1, h2⟩ : rd = wr ∧ ovf = 0)]
  · intro hne hlt
    have hb : ¬ s.fifo_buffer.isEmpty := by
      cases hfb : s.fifo_buffer with
      | nil =>
        rw [hfb] at hlt
        simp at hlt
      | cons a l => simp [hfb]
    unfold _handle_fifo_data_read
    rw [if_neg hb]
    dsimp only
    rw [hg_rd, hg_wr, hg_ovf, if_neg hne]
    have hmod : rd / 6 % fifo_size = rd / 6 :=
      Nat.mod_eq_of_lt (lt_of_lt_of_le hlt hcap)
    rw [hmod, if_pos hlt]
    refine ⟨rfl, ?_⟩
    unfold reg_set
    exact dict_lookup_set_self _ _ _

theorem fifo_data_read_semantics_witness :
    ((0 : Nat) = 6 ∧ (0 : Nat) = 0 →
      _handle_fifo_data_read (push_sample_to_fifo initial_state 10000 9500)
        = (0x00, push_sample_to_fifo initial_state 10000 9500)) ∧
    (¬ ((0 : Nat) = 6 ∧ (0 : Nat) = 0) →
      0 / 6 < (push_sample_to_fifo initial_state 10000 9500).fifo_buffer.length →
      (_handle_fifo_data_read (push_sample_to_fifo initial_state 10000 9500)).1
          = ((push_sample_to_fifo initial_state 10000 9500).fifo_buffer.getD (0 / 6) []).getD
              (0 % 6) 0 ∧
      dict_lookup (_handle_fifo_data_read
          (push_sample_to_fifo initial_state 10000 9500)).2.registers REG_FIFO_RD_PTR
          = some ((0 + 1) % (fifo_size * 6))) :=
  fifo_data_read_semantics (push_sample_to_fifo initial_state 10000 9500) 0 6 0
    (by decide) (by decide) (by decide) (by decide)

/-! ### C9: sample-rate decode -/

theorem mask_fc_shift (v : Nat) : ((v &&& 0xFC) >>> 2) &&& 0x07 = (v >>> 2) &&& 0x07 := by
  apply Nat.eq_of_testBit_eq
  intro j
  simp only [Nat.testBit_and, Nat.testBit_shiftRight]
  by_cases hj : j < 3
  · interval_cases j
    · have h252 : (0xFC : Nat).testBit 2 = true := by decide
      simp [h252]
    · have h252 : (0xFC : Nat).testBit 3 = true := by decide
      simp [h252]
    · have h252 : (0xFC : Nat).testBit 4 = true := by decide
      simp [h252]
  · have h7 : (0x07 : Nat).testBit j = false := by
      apply Nat.testBit_lt_two_pow
      calc (7 : Nat) < 2 ^ 3 := by norm_num
        _ ≤ 2 ^ j := Nat.pow_le_pow_right (by norm_num) (by omega)
    simp [h7]

/-- C9: writing the SpO2-config register decodes bits 4-2 through the fixed
sample-rate table {50,100,200,400,800,1000,1600,3200} (each of the 8 known
3-bit patterns maps to its table entry, any pattern outside the table decodes
to the default 100), and `MAX30102Device.get_sample_rate` applied to the
stored register byte produces the same decode. -/
theorem sample_rate_decode (s : I2CState) (regs : List (Nat × Nat)) (v : Nat) :
    ((_handle_spo2_config_write s v).sample_rate
        = some ((dict_lookup sample_rates_i2c ((v >>> 2) &&& 0x07)).getD 100)) ∧
    (device_get_sample_rate (dict_set regs REG_SPO2_CONFIG (v &&& 0xFC))
        = (dict_lookup sample_rates_i2c ((v >>> 2) &&& 0x07)).getD 100) ∧
    (dict_lookup sample_rates_i2c SPO2_SR_50 = some 50 ∧
     dict_lookup sample_rates_i2c SPO2_SR_100 = some 100 ∧
     dict_lookup sample_rates_i2c SPO2_SR_200 = some 200 ∧
     dict_lookup sample_rates_i2c SPO2_SR_400 = some 400 ∧
     dict_lookup sample_rates_i2c SPO2_SR_800 = some 800 ∧
     dict_lookup sample_rates_i2c SPO2_SR_1000 = some 1000 ∧
     dict_lookup sample_rates_i2c SPO2_SR_1600 = some 1600 ∧
     dict_lookup sample_rates_i2c SPO2_SR_3200 = some 3200) ∧
    (∀ b, dict_contains sample_rates_i2c b = false →
      (dict_lookup sample_rates_i2c b).getD 100 = 100) ∧
    sample_rates_i2c = sample_rates_device := by
  refine ⟨rfl, ?_, by decide, ?_, rfl⟩
  · unfold device_get_sample_rate
    rw [dict_lookup_set_self]
    show (dict_lookup sample_rates_device ((v &&& 0xFC) >>> 2 &&& 0x07)).getD 100 = _
    rw [mask_fc_shift]
    rfl
  · intro b hb
    rw [(dict_contains_eq_false_iff _ _).mp hb]
    rfl

theorem sample_rate_decode_witness :
    ((_handle_spo2_config_write initial_state 0x27).sample_rate
        = some ((dict_lookup sample_rates_i2c ((0x27 >>> 2) &&& 0x07)).getD 100)) ∧
    (device_get_sample_rate (dict_set DEFAULT_REGISTER_VALUES REG_SPO2_CONFIG (0x27 &&& 0xFC))
        = (dict_lookup sample_rates_i2c ((0x27 >>> 2) &&& 0x07)).getD 100) ∧
    (dict_lookup sample_rates_i2c SPO2_SR_50 = some 50 ∧
     dict_lookup sample_rates_i2c SPO2_SR_100 = some 100 ∧
     dict_lookup sample_rates_i2c SPO2_SR_200 = some 200 ∧
     dict_lookup sample_rates_i2c SPO2_SR_400 = some 400 ∧
     dict_lookup sample_rates_i2c SPO2_SR_800 = some 800 ∧
     dict_lookup sample_rates_i2c SPO2_SR_1000 = some 1000 ∧
     dict_lookup sample_rates_i2c SPO2_SR_1600 = some 1600 ∧
     dict_lookup sample_rates_i2c SPO2_SR_3200 = some 3200) ∧
    (∀ b, dict_contains sample_rates_i2c b = false →
      (dict_lookup sample_rates_i2c b).getD 100 = 100) ∧
    sample_rates_i2c = sample_rates_device :=
  sample_rate_decode initial_state DEFAULT_REGISTER_VALUES 0x27

end MAX30102

namespace MAX30102

/-! ### C10: burst operations and unknown addresses -/

theorem fifo_data_read_keys (s : I2CState)
    (hkeys : ∀ a, dict_contains s.registers a = dict_contains DEFAULT_REGISTER_VALUES a) :
    ∀ a, dict_contains (_handle_fifo_data_read s).2.registers a
        = dict_contains DEFAULT_REGISTER_VALUES a := by
  intro a
  unfold _handle_fifo_data_read reg_set
  dsimp only
  split
  · exact hkeys a
  · split
    · exact hkeys a
    · split
      · rw [dict_contains_set_of]
        · exact hkeys a
        · rw [hkeys]
          decide
      · exact hkeys a

theorem read_burst_loop_spec (count : Nat) :
    ∀ (s : I2CState) (register : Nat),
      (∀ a, dict_contains s.registers a = dict_contains DEFAULT_REGISTER_VALUES a) →
      (read_burst_loop s register count).1.length = count ∧
      (∀ i, i < count → dict_contains DEFAULT_REGISTER_VALUES (register + i) = false →
        (read_burst_loop s register count).1.getD i 1 = 0x00) := by
  induction count with
  | zero =>
    intro s register hkeys
    simp [read_burst_loop]
  | succ n ih =>
    intro s register hkeys
    unfold read_burst_loop
    by_cases hc : dict_contains s.registers register
    · rw [if_pos hc]
      by_cases hr : register = REG_FIFO_DATA
      · rw [if_pos hr]
        dsimp only
        have hrec := ih (_handle_fifo_data_read s).2 (register + 1) (fifo_data_read_keys s hkeys)
        refine ⟨by simp [hrec.1], ?_⟩
        intro i hi hdef
        cases i with
        | zero =>
          rw [Nat.add_zero] at hdef
          rw [hkeys] at hc
          rw [hdef] at hc
          exact absurd hc (by decide)
        | succ i =>
          have : register + (i + 1) = (register + 1) + i := by omega
          rw [this] at hdef
          simpa using hrec.2 i (by omega) hdef
      · rw [if_neg hr]
        dsimp only
        have hrec := ih s (register + 1) hkeys
        refine ⟨by simp [hrec.1], ?_⟩
        intro i hi hdef
        cases i with
        | zero =>
          rw [Nat.add_zero] at hdef
          rw [hkeys] at hc
          rw [hdef] at hc
          exact absurd hc (by decide)
        | succ i =>
          have : register + (i + 1) = (register + 1) + i := by omega
          rw [this] at hdef
          simpa using hrec.2 i (by omega) hdef
    · rw [if_neg hc]
      dsimp only
      have hrec := ih s (register + 1) hkeys
      refine ⟨by simp [hrec.1], ?_⟩
      intro i hi hdef
      cases i with
      | zero => rfl
      | succ i =>
        have : register + (i + 1) = (register + 1) + i := by omega
        rw [this] at hdef
        simpa using hrec.2 i (by omega) hdef

theorem write_burst_loop_keys (values : List Nat) :
    ∀ (s : I2CState) (register : Nat),
      (∀ a, dict_contains s.registers a = dict_contains DEFAULT_REGISTER_VALUES a) →
      ∀ a, dict_contains (write_burst_loop s register values).registers a
          = dict_contains DEFAULT_REGISTER_VALUES a := by
  induction values with
  | nil =>
    intro s register hkeys a
    exact hkeys a
  | cons value rest ih =>
    intro s register hkeys
    unfold write_burst_loop
    dsimp only
    apply ih
    by_cases hc : dict_contains s.registers register
    · rw [if_pos hc]
      have hkeys0 : ∀ a,
          dict_contains (dict_set s.registers register (value &&& 0xFF)) a
            = dict_contains DEFAULT_REGISTER_VALUES a := by
        intro a
        rw [dict_contains_set_of _ _ _ _ hc]
        exact hkeys a
      by_cases h1 : register = REG_MODE_CONFIG
      · rw [if_pos h1]
        unfold _handle_mode_config_write _handle_device_reset reg_set
        dsimp only
        split
        · intro a
          rfl
        · intro a
          rw [dict_contains_set_of]
          · exact hkeys0 a
          · rw [hkeys0]
            decide
      · rw [if_neg h1]
        by_cases h2 : register = REG_FIFO_CONFIG
        · rw [if_pos h2]
          unfold _handle_fifo_config_write reg_set
          intro a
          dsimp only
          rw [dict_contains_set_of]
          · exact hkeys0 a
          · rw [hkeys0]
            decide
        · rw [if_neg h2]
          exact hkeys0
    · rw [if_neg hc]
      exact hkeys

/-- C10: burst operations are lenient about unknown addresses in the range
(in every reachable state the register-file key set equals the key set of the
default table): a burst read over a range containing unknown addresses still
succeeds and returns exactly `count` bytes with each unknown address
contributing the placeholder 0x00, and a burst write skips unknown addresses
(still reporting success and leaving every unknown address without a cell). -/
theorem burst_operations_lenient (s : I2CState) (start_register count : Nat)
    (values : List Nat)
    (hbus : s.i2c_bus_available = true)
    (hkeys : ∀ a, dict_contains s.registers a = dict_contains DEFAULT_REGISTER_VALUES a) :
    (∃ vs, (read_registers_burst s start_register count).1 = some vs ∧
      vs.length = count ∧
      (∀ i, i < count → dict_contains DEFAULT_REGISTER_VALUES (start_register + i) = false →
        vs.getD i 1 = 0x00)) ∧
    (write_registers_burst s start_register values).1 = true ∧
    (∀ a, dict_contains DEFAULT_REGISTER_VALUES a = false →
      dict_lookup (write_registers_burst s start_register values).2.registers a = none) := by
  have hspec := read_burst_loop_spec count s start_register hkeys
  refine ⟨⟨(read_burst_loop s start_register count).1, ?_, hspec.1, hspec.2⟩, ?_, ?_⟩
  · simp [read_registers_burst, hbus]
  · simp [write_registers_burst, hbus]
  · intro a ha
    have hreg : (write_registers_burst s start_register values).2.registers
        = (write_burst_loop s start_register values).registers := by
      simp [write_registers_burst, hbus]
    rw [hreg]
    exact (dict_contains_eq_false_iff _ _).mp
      ((write_burst_loop_keys values s start_register hkeys a).trans ha)

theorem burst_operations_lenient_witness :
    (∃ vs, (read_registers_burst initial_state 0x0D 4).1 = some vs ∧
      vs.length = 4 ∧
      (∀ i, i < 4 → dict_contains DEFAULT_REGISTER_VALUES (0x0D + i) = false →
        vs.getD i 1 = 0x00)) ∧
    (write_registers_burst initial_state 0x0D [1, 2, 3, 4]).1 = true ∧
    (∀ a, dict_contains DEFAULT_REGISTER_VALUES a = false →
      dict_lookup (write_registers_burst initial_state 0x0D [1, 2, 3, 4]).2.registers a
          = none) :=
  burst_operations_lenient initial_state 0x0D 4 [1, 2, 3, 4] rfl initial_state_keys

end MAX30102
